import Mathlib

/-
  Verification of the staticSend concurrency core against its specification.

  Two components are embedded shallowly from the Go source:

  * the token-bucket rate limiter (`RateLimiter`, `NewRateLimiter`, `Limit`,
    `cleanup` from pkg/middleware), with wall-clock time passed explicitly
    as a natural number of nanoseconds (Go `time.Duration` units); and

  * the asynchronous email dispatcher (`EmailService`, `NewEmailService`,
    `SendAsync`, `Shutdown`, and the worker/retry loop from pkg/email),
    with the buffered channel embedded as a bounded FIFO list and the
    context-cancellation flag as a boolean.

  Go `int` token counts are embedded as `Int`; sizes and times as `Nat`.
-/

namespace StaticSend

/-! ## Rate limiter (pkg/middleware) -/

/-- Go `5 * time.Minute` in nanoseconds: the cleanup sweep interval. -/
def fiveMinutes : Nat := 300000000000

/-- Go `time.Hour` in nanoseconds: the bucket staleness threshold. -/
def oneHour : Nat := 3600000000000

/-- A token bucket for a specific key, mirroring the Go struct `tokenBucket`
with fields `Tokens int` and `LastCheck time.Time` (time as ns). -/
structure tokenBucket where
  Tokens : Int
  LastCheck : Nat
deriving DecidableEq, Repr

/-- The rate limiter state, mirroring the Go struct `RateLimiter`:
`rate time.Duration`, `burst int`, `buckets map[string]*tokenBucket`,
`cleanupTime time.Time`.  The map is embedded as a function to `Option`. -/
structure RateLimiter where
  rate : Nat
  burst : Int
  buckets : String → Option tokenBucket
  cleanupTime : Nat

/-- Mirrors Go `NewRateLimiter`: stores `rate` and `burst` unchecked and
starts with an empty bucket map (zero-value `cleanupTime`). -/
def NewRateLimiter (rate : Nat) (burst : Int) : RateLimiter :=
  { rate := rate
    burst := burst
    buckets := fun _ => none
    cleanupTime := 0 }

/-- Mirrors Go `cleanup`: deletes every bucket whose `LastCheck` is more
than one hour before `now`.  The Go loop deletes stale entries from the
map; pointwise this is the filter below. -/
def cleanup (buckets : String → Option tokenBucket) (now : Nat) :
    String → Option tokenBucket :=
  fun k =>
    match buckets k with
    | some b => if oneHour < now - b.LastCheck then none else some b
    | none => none

/-- The cleanup gate at the top of Go `Limit`: if `now.After(rl.cleanupTime)`
then run `cleanup` and set `cleanupTime = now.Add(5 * time.Minute)`. -/
def maybeCleanup (rl : RateLimiter) (now : Nat) : RateLimiter :=
  if rl.cleanupTime < now then
    { rl with buckets := cleanup rl.buckets now, cleanupTime := now + fiveMinutes }
  else rl

/-- The bucket lookup in Go `Limit`: on a miss a fresh bucket with
`Tokens = burst, LastCheck = now` is created (and will be stored back). -/
def lookupBucket (rl : RateLimiter) (key : String) (now : Nat) : tokenBucket :=
  match rl.buckets key with
  | some b => b
  | none => { Tokens := rl.burst, LastCheck := now }

/-- The refill step of Go `Limit`: `tokensToAdd = int(elapsed / rate)`; if
positive, add it (clamping at `burst`) and set `LastCheck = now`. -/
def refill (rl : RateLimiter) (b : tokenBucket) (now : Nat) : tokenBucket :=
  let tokensToAdd : Int := Int.ofNat ((now - b.LastCheck) / rl.rate)
  if 0 < tokensToAdd then
    { Tokens := if rl.burst < b.Tokens + tokensToAdd then rl.burst else b.Tokens + tokensToAdd
      LastCheck := now }
  else b

/-- Store a bucket back under its key (the Go code mutates the map entry
through a pointer; the final map value is this update). -/
def setBucket (rl : RateLimiter) (key : String) (b : tokenBucket) : RateLimiter :=
  { rl with buckets := fun k => if k = key then some b else rl.buckets k }

/-- Mirrors Go `Limit(key) bool` with `now` passed explicitly.  Returns
`true` when the request is RATE LIMITED (denied): after the optional
cleanup sweep, the key's bucket is fetched or created, refilled, and then
either left untouched (denied, `Tokens <= 0`) or decremented (allowed). -/
def Limit (rl0 : RateLimiter) (key : String) (now : Nat) : Bool × RateLimiter :=
  let rl := maybeCleanup rl0 now
  let b := refill rl (lookupBucket rl key now) now
  if b.Tokens ≤ 0 then
    (true, setBucket rl key b)
  else
    (false, setBucket rl key { b with Tokens := b.Tokens - 1 })

/-- State of the limiter after `n` consecutive `Limit` calls on the same
key at the same instant `now`. -/
def limitIter (rl : RateLimiter) (key : String) (now : Nat) : Nat → RateLimiter
  | 0 => rl
  | n + 1 => (Limit (limitIter rl key now n) key now).2

/-- Result of the `(n+1)`-th consecutive `Limit` call on the same key at
the same instant `now` (0-indexed `n`). -/
def limitNth (rl : RateLimiter) (key : String) (now : Nat) (n : Nat) : Bool :=
  (Limit (limitIter rl key now n) key now).1

/-- State of the limiter after a sequence of `Limit` calls, each given as
a key together with the instant of the call. -/
def limitRun (rl : RateLimiter) : List (String × Nat) → RateLimiter
  | [] => rl
  | (k, t) :: rest => limitRun (Limit rl k t).2 rest

/-- Modelled from the spec's wording of `AdmissionController.Check(key) ->
bool` (§4.1), where `true` means ALLOWED: opportunistically, when the
sweep is due, remove buckets whose last refill is older than the
staleness threshold and re-arm the sweep for one sweep interval; look up
or lazily create the key's bucket (`tokens = burst`); compute
`tokensToAdd = floor(elapsed / rate)`; if positive, add it to `tokens`
clamped to `burst` and store `lastRefill = now` (the spec's documented
alternative, the one this code base uses); if `tokens <= 0` return
`false` (denied) without mutating further; otherwise decrement `tokens`
by 1 and return `true`. -/
def CheckSpec (rl : RateLimiter) (key : String) (now : Nat) : Bool × RateLimiter :=
  let rl1 : RateLimiter :=
    if rl.cleanupTime < now then
      { rl with
        buckets := fun k =>
          match rl.buckets k with
          | some bb => if oneHour < now - bb.LastCheck then none else some bb
          | none => none
        cleanupTime := now + fiveMinutes }
    else rl
  let b0 : tokenBucket :=
    match rl1.buckets key with
    | some bb => bb
    | none => { Tokens := rl1.burst, LastCheck := now }
  let tokensToAdd : Int := Int.ofNat ((now - b0.LastCheck) / rl1.rate)
  let b1 : tokenBucket :=
    if 0 < tokensToAdd then { Tokens := min (b0.Tokens + tokensToAdd) rl1.burst, LastCheck := now }
    else b0
  if b1.Tokens ≤ 0 then
    (false, { rl1 with buckets := fun k => if k = key then some b1 else rl1.buckets k })
  else
    (true, { rl1 with buckets := fun k =>
      if k = key then some { Tokens := b1.Tokens - 1, LastCheck := b1.LastCheck }
      else rl1.buckets k })

/-! ## Email dispatcher (pkg/email) -/

/-- Mirrors the Go struct `EmailJob`: recipients, subject, body, and the
retry counter `Retries int` (starts at 0 on first submission). -/
structure EmailJob where
  To : List String
  Subject : String
  Body : String
  Retries : Nat
deriving DecidableEq, Repr

/-- Mirrors the Go struct `EmailService`.  The buffered channel
`jobQueue chan EmailJob` of capacity `queueSize` is embedded as a FIFO
list plus its capacity; `ctxDone` is the cancellation flag set by
`es.cancel()`; `queueClosed` records whether `close(es.jobQueue)` has run;
`workersRunning` counts the worker goroutines not yet exited. -/
structure EmailService where
  jobQueue : List EmailJob
  queueSize : Nat
  maxWorkers : Nat
  maxRetries : Nat
  ctxDone : Bool
  queueClosed : Bool
  workersRunning : Nat
deriving DecidableEq, Repr

/-- Mirrors Go `NewEmailService` (SMTP config fields elided: they never
influence queueing, retry or shutdown behaviour).  Note the Go function
validates nothing: it stores the numbers and starts `maxWorkers` workers
unconditionally. -/
def NewEmailService (queueSize maxWorkers maxRetries : Nat) : EmailService :=
  { jobQueue := []
    queueSize := queueSize
    maxWorkers := maxWorkers
    maxRetries := maxRetries
    ctxDone := false
    queueClosed := false
    workersRunning := maxWorkers }

/-- The error values `SendAsync` can return, in the Go source the strings
"no recipients specified", "email service is shutting down" and
"email queue is full". -/
inductive SendAsyncError where
  | noRecipients
  | shuttingDown
  | queueFull
deriving DecidableEq, Repr

/-- Mirrors Go `SendAsync`: reject empty recipient lists; reject when the
context is cancelled; then a non-blocking channel send (`select` with
`default`) that succeeds exactly when the buffer has a free slot, placing
the job with `Retries = 0` at the tail, and otherwise fails as full. -/
def SendAsync (es : EmailService) («to» : List String) (subject body : String) :
    Except SendAsyncError EmailService :=
  if «to».length = 0 then
    .error .noRecipients
  else if es.ctxDone then
    .error .shuttingDown
  else if es.jobQueue.length < es.queueSize then
    .ok { es with jobQueue :=
      es.jobQueue ++ [{ To := «to», Subject := subject, Body := body, Retries := 0 }] }
  else
    .error .queueFull

/-- Mirrors Go `Shutdown`: `es.cancel()` (sets the done flag), then
`es.workerWg.Wait()` — the workers' `select` observes the cancelled
context and every worker returns, so the wait terminates with all workers
exited — then `close(es.jobQueue)`.  Closing an already-closed Go channel
panics, embedded as `none`. -/
def Shutdown (es : EmailService) : Option EmailService :=
  let es1 : EmailService := { es with ctxDone := true, workersRunning := 0 }
  if es1.queueClosed then none
  else some { es1 with queueClosed := true }

/-- Observable events of the worker/retry loop (`emailWorker` and
`retryJob`).  There is no persistence event constructor emitted anywhere:
`emailWorker` only calls `log.Printf` on a permanent failure and never
invokes any persistence/record-outcome collaborator. -/
inductive WorkerEvent where
  | transportAttempt (retries : Nat)
  | retryScheduled (retries : Nat)
  | permanentFailureLog
  | successLog
  | persistenceRecord
deriving DecidableEq, Repr

/-- Number of transport attempts in a trace. -/
def countTransportAttempts : List WorkerEvent → Nat
  | [] => 0
  | .transportAttempt _ :: es => countTransportAttempts es + 1
  | _ :: es => countTransportAttempts es

/-- Number of permanent-failure log lines in a trace. -/
def countPermanentFailureLogs : List WorkerEvent → Nat
  | [] => 0
  | .permanentFailureLog :: es => countPermanentFailureLogs es + 1
  | _ :: es => countPermanentFailureLogs es

/-- Number of persistence-collaborator notifications in a trace. -/
def countPersistenceRecords : List WorkerEvent → Nat
  | [] => 0
  | .persistenceRecord :: es => countPersistenceRecords es + 1
  | _ :: es => countPersistenceRecords es

/-- The event trace of one job driven to its terminal outcome by
`emailWorker` when every `Send` attempt fails and every re-submission by
`retryJob` is accepted (queue has room, no shutdown).  Each round: the
worker dequeues the job and calls `Send` (a transport attempt); on error,
if `job.Retries < es.maxRetries` the counter is incremented and `retryJob`
re-enqueues it (logging the retry); otherwise the worker logs the
permanent failure — and does nothing else: no persistence call exists in
the Go worker. -/
def runAlwaysFail (maxRetries : Nat) (job : EmailJob) : List WorkerEvent :=
  if job.Retries < maxRetries then
    WorkerEvent.transportAttempt job.Retries ::
      WorkerEvent.retryScheduled (job.Retries + 1) ::
        runAlwaysFail maxRetries { job with Retries := job.Retries + 1 }
  else
    [WorkerEvent.transportAttempt job.Retries, WorkerEvent.permanentFailureLog]
termination_by maxRetries - job.Retries

/-! ## Helper lemmas for the worker/retry trace -/

/-- Event counts of the always-failing run: with `n` retries still allowed,
the trace holds `n + 1` transport attempts, exactly one permanent-failure
log, and zero persistence-collaborator notifications. -/
theorem runAlwaysFail_count_eq (n : Nat) :
    ∀ (maxRetries : Nat) (job : EmailJob), maxRetries - job.Retries = n →
      countTransportAttempts (runAlwaysFail maxRetries job) = n + 1 ∧
      countPermanentFailureLogs (runAlwaysFail maxRetries job) = 1 ∧
      countPersistenceRecords (runAlwaysFail maxRetries job) = 0 := by
  induction n with
  | zero =>
    intro m job h
    have hnot : ¬ job.Retries < m := by omega
    rw [runAlwaysFail]
    simp [hnot, countTransportAttempts, countPermanentFailureLogs, countPersistenceRecords]
  | succ n ih =>
    intro m job h
    have hlt : job.Retries < m := by omega
    obtain ⟨h1, h2, h3⟩ := ih m { job with Retries := job.Retries + 1 }
      (show m - (job.Retries + 1) = n by omega)
    rw [runAlwaysFail]
    simp only [if_pos hlt, countTransportAttempts, countPermanentFailureLogs,
      countPersistenceRecords]
    simp [h1, h2, h3]

end StaticSend

namespace StaticSend

/-! ## Helper lemmas for the rate limiter -/

/-- A bucket surviving `cleanup`: kept exactly when touched within the hour. -/
theorem cleanup_eq_some (m : String → Option tokenBucket) (now : Nat) (k : String)
    (b : tokenBucket) (h : m k = some b) (hfresh : now - b.LastCheck ≤ oneHour) :
    cleanup m now k = some b := by
  simp only [cleanup, h]
  rw [if_neg (by omega)]

/-- `cleanup` cannot invent buckets. -/
theorem cleanup_eq_none (m : String → Option tokenBucket) (now : Nat) (k : String)
    (h : m k = none) : cleanup m now k = none := by
  simp [cleanup, h]

/-- Any bucket present after `cleanup` was present before, unchanged. -/
theorem cleanup_sub (m : String → Option tokenBucket) (now : Nat) (k : String)
    (b : tokenBucket) (h : cleanup m now k = some b) : m k = some b := by
  rcases hmk : m k with _ | b'
  · simp [cleanup, hmk] at h
  · by_cases hst : oneHour < now - b'.LastCheck
    · simp [cleanup, hmk, hst] at h
    · simp only [cleanup, hmk, if_neg hst] at h
      rw [h]

/-- The cleanup gate preserves the refill rate. -/
theorem maybeCleanup_rate (rl : RateLimiter) (now : Nat) :
    (maybeCleanup rl now).rate = rl.rate := by
  unfold maybeCleanup
  split <;> rfl

/-- The cleanup gate preserves the burst size. -/
theorem maybeCleanup_burst (rl : RateLimiter) (now : Nat) :
    (maybeCleanup rl now).burst = rl.burst := by
  unfold maybeCleanup
  split <;> rfl

/-- After the cleanup gate, the next sweep time never lies before `now`. -/
theorem maybeCleanup_not_lt (rl : RateLimiter) (now : Nat) :
    ¬ (maybeCleanup rl now).cleanupTime < now := by
  unfold maybeCleanup
  split
  · simp only
    omega
  · assumption

/-- A non-stale bucket survives the cleanup gate unchanged. -/
theorem maybeCleanup_buckets_some (rl : RateLimiter) (now : Nat) (k : String)
    (b : tokenBucket) (h : rl.buckets k = some b) (hfresh : now - b.LastCheck ≤ oneHour) :
    (maybeCleanup rl now).buckets k = some b := by
  unfold maybeCleanup
  split
  · exact cleanup_eq_some _ _ _ _ h hfresh
  · exact h

/-- A missing bucket is still missing after the cleanup gate. -/
theorem maybeCleanup_buckets_none (rl : RateLimiter) (now : Nat) (k : String)
    (h : rl.buckets k = none) : (maybeCleanup rl now).buckets k = none := by
  unfold maybeCleanup
  split
  · exact cleanup_eq_none _ _ _ h
  · exact h

/-- Any bucket present after the cleanup gate was present before, unchanged. -/
theorem maybeCleanup_buckets_sub (rl : RateLimiter) (now : Nat) (k : String)
    (b : tokenBucket) (h : (maybeCleanup rl now).buckets k = some b) :
    rl.buckets k = some b := by
  unfold maybeCleanup at h
  split at h
  · exact cleanup_sub _ _ _ _ h
  · exact h

/-- Reading back the key just stored. -/
theorem setBucket_same (rl : RateLimiter) (k : String) (b : tokenBucket) :
    (setBucket rl k b).buckets k = some b := by
  simp [setBucket]

/-- Storing under one key leaves every other key's entry unchanged. -/
theorem setBucket_other (rl : RateLimiter) (k : String) (b : tokenBucket) (k' : String)
    (h : k' ≠ k) : (setBucket rl k b).buckets k' = rl.buckets k' := by
  simp [setBucket, h]

/-- Refill at an instant no later than the stored `LastCheck` plus one rate
interval adds nothing, in particular at the very same instant. -/
theorem refill_same_time (rl : RateLimiter) (t : Int) (now : Nat) :
    refill rl ⟨t, now⟩ now = ⟨t, now⟩ := by
  simp [refill]

/-- Unfolding equation for `Limit` with the local bindings expanded. -/
theorem Limit_def (rl : RateLimiter) (key : String) (now : Nat) :
    Limit rl key now =
      if (refill (maybeCleanup rl now) (lookupBucket (maybeCleanup rl now) key now) now).Tokens
          ≤ 0 then
        (true, setBucket (maybeCleanup rl now) key
          (refill (maybeCleanup rl now) (lookupBucket (maybeCleanup rl now) key now) now))
      else
        (false, setBucket (maybeCleanup rl now) key
          ⟨(refill (maybeCleanup rl now) (lookupBucket (maybeCleanup rl now) key now) now).Tokens
              - 1,
           (refill (maybeCleanup rl now)
              (lookupBucket (maybeCleanup rl now) key now) now).LastCheck⟩) := rfl

/-- One `Limit` call on a key whose bucket was refilled at this same
instant, with the sweep timer already ahead: the call is denied exactly
when the tokens are exhausted, consumes one token otherwise, and leaves
rate, burst and sweep timer unchanged. -/
theorem Limit_same_time (rl : RateLimiter) (key : String) (now : Nat) (t : Int)
    (hkey : rl.buckets key = some ⟨t, now⟩) (hct : ¬ rl.cleanupTime < now) :
    (Limit rl key now).1 = decide (t ≤ 0) ∧
    ((Limit rl key now).2).buckets key = some ⟨if t ≤ 0 then t else t - 1, now⟩ ∧
    (Limit rl key now).2.rate = rl.rate ∧
    (Limit rl key now).2.burst = rl.burst ∧
    (Limit rl key now).2.cleanupTime = rl.cleanupTime := by
  have hmc : maybeCleanup rl now = rl := by
    unfold maybeCleanup
    rw [if_neg hct]
  have hlook : lookupBucket rl key now = ⟨t, now⟩ := by
    simp [lookupBucket, hkey]
  rw [Limit_def, hmc, hlook, refill_same_time]
  by_cases ht : t ≤ 0
  · rw [if_pos ht]
    exact ⟨(decide_eq_true ht).symm, by rw [setBucket_same, if_pos ht], rfl, rfl, rfl⟩
  · rw [if_neg ht]
    exact ⟨(decide_eq_false ht).symm, by rw [setBucket_same, if_neg ht], rfl, rfl, rfl⟩

/-- One `Limit` call on a key with no bucket yet and a positive burst: the
bucket is created holding `burst` tokens, one token is consumed at once,
the call is allowed, and the sweep timer ends up no earlier than `now`. -/
theorem Limit_fresh_key (rl : RateLimiter) (key : String) (now : Nat)
    (hkey : rl.buckets key = none) (hburst : 0 < rl.burst) :
    (Limit rl key now).1 = false ∧
    ((Limit rl key now).2).buckets key = some ⟨rl.burst - 1, now⟩ ∧
    (Limit rl key now).2.rate = rl.rate ∧
    (Limit rl key now).2.burst = rl.burst ∧
    ¬ ((Limit rl key now).2.cleanupTime < now) := by
  have hb : (maybeCleanup rl now).buckets key = none := maybeCleanup_buckets_none _ _ _ hkey
  have hcn := maybeCleanup_not_lt rl now
  have hlook : lookupBucket (maybeCleanup rl now) key now
      = ⟨(maybeCleanup rl now).burst, now⟩ := by
    simp [lookupBucket, hb]
  rw [Limit_def, hlook, refill_same_time,
    if_neg (show ¬ (maybeCleanup rl now).burst ≤ 0 by rw [maybeCleanup_burst]; omega)]
  refine ⟨rfl, ?_, maybeCleanup_rate rl now, maybeCleanup_burst rl now, hcn⟩
  rw [setBucket_same]
  simp [maybeCleanup_burst]

/-- After `n` same-instant calls (`1 ≤ n ≤ N`) on a fresh limiter with
burst `N`, the key's bucket holds `N - n` tokens and the sweep timer is
not behind `now`. -/
theorem limitIter_fresh_state (rate N : Nat) (key : String) (now : Nat) (hN : 1 ≤ N) :
    ∀ n, 1 ≤ n → n ≤ N →
      (limitIter (NewRateLimiter rate (N : Int)) key now n).buckets key
        = some ⟨(N : Int) - (n : Int), now⟩ ∧
      ¬ ((limitIter (NewRateLimiter rate (N : Int)) key now n).cleanupTime < now) := by
  intro n
  induction n with
  | zero => intro h1 _; exact absurd h1 (by decide)
  | succ n ih =>
    intro _ h2
    by_cases hn : n = 0
    · subst hn
      obtain ⟨-, hb, -, -, hc⟩ :=
        Limit_fresh_key (NewRateLimiter rate (N : Int)) key now rfl
          (show (0 : Int) < (N : Int) by exact_mod_cast hN)
      have hstep : limitIter (NewRateLimiter rate (N : Int)) key now 1
          = (Limit (NewRateLimiter rate (N : Int)) key now).2 := rfl
      have hbr : (NewRateLimiter rate (N : Int)).burst = (N : Int) := rfl
      rw [hbr] at hb
      refine ⟨?_, by rw [hstep]; exact hc⟩
      rw [hstep, hb]
      norm_num
    · have hn1 : 1 ≤ n := Nat.one_le_iff_ne_zero.2 hn
      obtain ⟨hb, hc⟩ := ih hn1 (by omega)
      obtain ⟨-, hb', -, -, hc'⟩ :=
        Limit_same_time (limitIter (NewRateLimiter rate (N : Int)) key now n) key now
          ((N : Int) - (n : Int)) hb hc
      have hpos : ¬ ((N : Int) - (n : Int) ≤ 0) := by
        have : n < N := by omega
        omega
      have hstep : limitIter (NewRateLimiter rate (N : Int)) key now (n + 1)
          = (Limit (limitIter (NewRateLimiter rate (N : Int)) key now n) key now).2 := rfl
      refine ⟨?_, by rw [hstep, hc']; exact hc⟩
      rw [hstep, hb', if_neg hpos]
      have hcast : (N : Int) - ((n + 1 : Nat) : Int) = (N : Int) - (n : Int) - 1 := by
        push_cast
        ring
      rw [hcast]

end StaticSend

namespace StaticSend

/-! ## Claim C5 — burst-many immediate admissions, then denial -/

/-- C5.  On a fresh admission controller with burst `N ≥ 1` and a positive
refill rate, with no elapsed time between calls, the first `N` `Limit`
calls on any key return `false` (allowed, i.e. `Check` true) and the
`(N+1)`-th returns `true` (denied, i.e. `Check` false). -/
theorem C5_first_burst_calls (rate N : Nat) (key : String) (now : Nat)
    (hrate : 0 < rate) (hN : 1 ≤ N) :
    (∀ i, i < N → limitNth (NewRateLimiter rate (N : Int)) key now i = false) ∧
    limitNth (NewRateLimiter rate (N : Int)) key now N = true := by
  constructor
  · intro i hi
    by_cases hi0 : i = 0
    · subst hi0
      exact (Limit_fresh_key (NewRateLimiter rate (N : Int)) key now rfl
        (show (0 : Int) < (N : Int) by exact_mod_cast hN)).1
    · have hi1 : 1 ≤ i := Nat.one_le_iff_ne_zero.2 hi0
      obtain ⟨hb, hc⟩ := limitIter_fresh_state rate N key now hN i hi1 (by omega)
      obtain ⟨h1, -, -, -, -⟩ :=
        Limit_same_time (limitIter (NewRateLimiter rate (N : Int)) key now i) key now
          ((N : Int) - (i : Int)) hb hc
      rw [limitNth, h1, decide_eq_false (by omega : ¬ ((N : Int) - (i : Int) ≤ 0))]
  · obtain ⟨hb, hc⟩ := limitIter_fresh_state rate N key now hN N hN le_rfl
    obtain ⟨h1, -, -, -, -⟩ :=
      Limit_same_time (limitIter (NewRateLimiter rate (N : Int)) key now N) key now
        ((N : Int) - (N : Int)) hb hc
    rw [limitNth, h1, decide_eq_true (by omega : (N : Int) - (N : Int) ≤ 0)]

/-- C5, witness: Scenario A's key with `burst = 2` at one instant — calls
one and two are admitted, call three is denied. -/
theorem C5_witness :
    limitNth (NewRateLimiter 100 2) "1.2.3.4" 7 0 = false ∧
    limitNth (NewRateLimiter 100 2) "1.2.3.4" 7 1 = false ∧
    limitNth (NewRateLimiter 100 2) "1.2.3.4" 7 2 = true := by
  have h := C5_first_burst_calls 100 2 "1.2.3.4" 7 (by decide) (by decide)
  exact ⟨h.1 0 (by decide), h.1 1 (by decide), h.2⟩

/-! ## Claim C6 — token bounds invariant -/

/-- Unfolding equation for `refill` with the local binding expanded. -/
theorem refill_def (rl : RateLimiter) (b : tokenBucket) (now : Nat) :
    refill rl b now =
      if 0 < Int.ofNat ((now - b.LastCheck) / rl.rate) then
        ⟨if rl.burst < b.Tokens + Int.ofNat ((now - b.LastCheck) / rl.rate) then rl.burst
          else b.Tokens + Int.ofNat ((now - b.LastCheck) / rl.rate), now⟩
      else b := rfl

/-- Looking up an existing bucket returns it. -/
theorem lookupBucket_some (rl : RateLimiter) (key : String) (now : Nat) (b : tokenBucket)
    (h : rl.buckets key = some b) : lookupBucket rl key now = b := by
  simp [lookupBucket, h]

/-- Looking up a missing bucket lazily creates a full one. -/
theorem lookupBucket_none (rl : RateLimiter) (key : String) (now : Nat)
    (h : rl.buckets key = none) : lookupBucket rl key now = ⟨rl.burst, now⟩ := by
  simp [lookupBucket, h]

/-- Refill preserves the token bounds: the credited amount is non-negative
and the sum is clamped at `burst`. -/
theorem refill_bounds (rl : RateLimiter) (b : tokenBucket) (now : Nat)
    (h0 : 0 ≤ b.Tokens) (h1 : b.Tokens ≤ rl.burst) :
    0 ≤ (refill rl b now).Tokens ∧ (refill rl b now).Tokens ≤ rl.burst := by
  rw [refill_def]
  have hadd : (0 : Int) ≤ Int.ofNat ((now - b.LastCheck) / rl.rate) := Int.ofNat_nonneg _
  split
  · constructor
    · simp only
      split <;> omega
    · simp only
      split <;> omega
  · exact ⟨h0, h1⟩

/-- Where each bucket in the post-state of a `Limit` call comes from:
other keys carry the (possibly swept) prior entry; the checked key holds
either the refilled bucket untouched (denied) or the refilled bucket with
exactly one token consumed (allowed). -/
theorem Limit_buckets_post (rl : RateLimiter) (key : String) (now : Nat) (k : String)
    (b : tokenBucket) (h : ((Limit rl key now).2).buckets k = some b) :
    (k ≠ key ∧ (maybeCleanup rl now).buckets k = some b) ∨
    (k = key ∧
      (refill (maybeCleanup rl now) (lookupBucket (maybeCleanup rl now) key now) now).Tokens
        ≤ 0 ∧
      b = refill (maybeCleanup rl now) (lookupBucket (maybeCleanup rl now) key now) now) ∨
    (k = key ∧
      0 < (refill (maybeCleanup rl now) (lookupBucket (maybeCleanup rl now) key now) now).Tokens
        ∧
      b = ⟨(refill (maybeCleanup rl now)
              (lookupBucket (maybeCleanup rl now) key now) now).Tokens - 1,
           (refill (maybeCleanup rl now)
              (lookupBucket (maybeCleanup rl now) key now) now).LastCheck⟩) := by
  rw [Limit_def] at h
  by_cases hk : k = key
  · subst hk
    split at h
    · dsimp only at h
      rw [setBucket_same] at h
      exact Or.inr (Or.inl ⟨rfl, by assumption, (Option.some.inj h).symm⟩)
    · dsimp only at h
      rw [setBucket_same] at h
      exact Or.inr (Or.inr ⟨rfl, by omega, (Option.some.inj h).symm⟩)
  · left
    refine ⟨hk, ?_⟩
    split at h
    · dsimp only at h
      rwa [setBucket_other _ _ _ _ hk] at h
    · dsimp only at h
      rwa [setBucket_other _ _ _ _ hk] at h

/-- One admission check on a state whose buckets all satisfy the bound
keeps every bucket's token count in `[0, burst]`: refill is clamped at
`burst` and a denied check performs no decrement. -/
theorem Limit_token_bounds (rl : RateLimiter) (key : String) (now : Nat)
    (hburst : 0 ≤ rl.burst)
    (hinv : ∀ k b, rl.buckets k = some b → 0 ≤ b.Tokens ∧ b.Tokens ≤ rl.burst) :
    ∀ k b, ((Limit rl key now).2).buckets k = some b →
      0 ≤ b.Tokens ∧ b.Tokens ≤ rl.burst := by
  intro k b h
  have hlook : 0 ≤ (lookupBucket (maybeCleanup rl now) key now).Tokens ∧
      (lookupBucket (maybeCleanup rl now) key now).Tokens ≤ rl.burst := by
    rcases hx : (maybeCleanup rl now).buckets key with _ | bb
    · rw [lookupBucket_none _ _ _ hx]
      rw [maybeCleanup_burst]
      exact ⟨hburst, le_refl _⟩
    · rw [lookupBucket_some _ _ _ _ hx]
      exact hinv key bb (maybeCleanup_buckets_sub _ _ _ _ hx)
  have href := refill_bounds (maybeCleanup rl now)
    (lookupBucket (maybeCleanup rl now) key now) now hlook.1
    (by rw [maybeCleanup_burst]; exact hlook.2)
  rw [maybeCleanup_burst] at href
  rcases Limit_buckets_post rl key now k b h with ⟨-, hmem⟩ | ⟨-, -, rfl⟩ | ⟨-, hpos, rfl⟩
  · exact hinv k b (maybeCleanup_buckets_sub _ _ _ _ hmem)
  · exact href
  · refine ⟨?_, ?_⟩ <;> (dsimp only; omega)

/-- The admission check never changes the configured refill rate. -/
theorem Limit_rate (rl : RateLimiter) (key : String) (now : Nat) :
    (Limit rl key now).2.rate = rl.rate := by
  rw [Limit_def]
  split <;> (dsimp only; exact maybeCleanup_rate rl now)

/-- The admission check never changes the configured burst size. -/
theorem Limit_burst (rl : RateLimiter) (key : String) (now : Nat) :
    (Limit rl key now).2.burst = rl.burst := by
  rw [Limit_def]
  split <;> (dsimp only; exact maybeCleanup_burst rl now)

/-- C6.  Across every sequence of admission checks starting from a state
whose buckets all satisfy the bound (the fresh, empty state in
particular), every bucket's token count stays in the closed interval
`[0, burst]`: refill is clamped so tokens never exceed `burst`, and a
denied check performs no decrement so tokens never go negative. -/
theorem C6_token_bounds (rl : RateLimiter) (calls : List (String × Nat))
    (hrate : 0 < rl.rate) (hburst : 0 ≤ rl.burst)
    (hinv : ∀ k b, rl.buckets k = some b → 0 ≤ b.Tokens ∧ b.Tokens ≤ rl.burst) :
    ∀ k b, (limitRun rl calls).buckets k = some b →
      0 ≤ b.Tokens ∧ b.Tokens ≤ rl.burst := by
  induction calls generalizing rl with
  | nil => exact hinv
  | cons c rest ih =>
    intro k b h
    obtain ⟨ck, ct⟩ := c
    have hrun : limitRun rl ((ck, ct) :: rest) = limitRun (Limit rl ck ct).2 rest := rfl
    rw [hrun] at h
    have hbeq := Limit_burst rl ck ct
    have hreq := Limit_rate rl ck ct
    have hres := ih (Limit rl ck ct).2 (by rw [hreq]; exact hrate) (by rw [hbeq]; exact hburst)
      (by
        intro k' b' h'
        rw [hbeq]
        exact Limit_token_bounds rl ck ct hburst hinv k' b' h')
      k b h
    rwa [hbeq] at hres

/-- C6, witness: after two checks on a fresh limiter with burst 2, the
stored bucket holds 0 tokens, inside `[0, 2]`. -/
theorem C6_witness :
    0 ≤ ((⟨0, 5⟩ : tokenBucket)).Tokens ∧
      ((⟨0, 5⟩ : tokenBucket)).Tokens ≤ (NewRateLimiter 100 2).burst :=
  C6_token_bounds (NewRateLimiter 100 2) [("1.2.3.4", 5), ("1.2.3.4", 5)]
    (by decide) (by decide)
    (by intro k b hkb; simp [NewRateLimiter] at hkb)
    "1.2.3.4" ⟨0, 5⟩ (by decide)

/-! ## Claim C7 — refill after exhaustion -/

/-- Storing a bucket does not touch the sweep timer. -/
theorem setBucket_cleanupTime (rl : RateLimiter) (k : String) (b : tokenBucket) :
    (setBucket rl k b).cleanupTime = rl.cleanupTime := rfl

/-- C7, amended.  For an exhausted, non-stale bucket (`Tokens = 0`, last
refill within the hour), if the elapsed time since the last refill is at
least one `rate` interval but less than two, then exactly one more check
is admitted: the refill credits `floor(elapsed / rate) = 1` token (clamped
below `burst`), the admitted call consumes it leaving the bucket at
`⟨0, now⟩`, and the next immediate check is denied again. -/
theorem C7_one_refilled_token (rl : RateLimiter) (key : String) (now : Nat) (b : tokenBucket)
    (hkey : rl.buckets key = some b) (hex : b.Tokens = 0)
    (hburst : 1 ≤ rl.burst) (hrate : 0 < rl.rate)
    (h1 : rl.rate ≤ now - b.LastCheck) (h2 : now - b.LastCheck < 2 * rl.rate)
    (hstale : now - b.LastCheck ≤ oneHour) :
    (now - b.LastCheck) / rl.rate = 1 ∧
    (Limit rl key now).1 = false ∧
    ((Limit rl key now).2).buckets key = some ⟨0, now⟩ ∧
    (Limit ((Limit rl key now).2) key now).1 = true := by
  have hdiv : (now - b.LastCheck) / rl.rate = 1 := by
    have hge : 1 ≤ (now - b.LastCheck) / rl.rate :=
      (Nat.le_div_iff_mul_le hrate).2 (by omega)
    have hlt : (now - b.LastCheck) / rl.rate < 2 :=
      (Nat.div_lt_iff_lt_mul hrate).2 (by omega)
    omega
  have hbk : (maybeCleanup rl now).buckets key = some b :=
    maybeCleanup_buckets_some _ _ _ _ hkey hstale
  have hlk : lookupBucket (maybeCleanup rl now) key now = b :=
    lookupBucket_some _ _ _ _ hbk
  have href : refill (maybeCleanup rl now) b now = ⟨1, now⟩ := by
    rw [refill_def, maybeCleanup_rate, maybeCleanup_burst, hdiv,
      show Int.ofNat 1 = 1 from rfl,
      if_pos (by omega : (0 : Int) < 1),
      if_neg (show ¬ rl.burst < b.Tokens + 1 by rw [hex]; omega), hex]
    norm_num
  have hfirst : Limit rl key now = (false, setBucket (maybeCleanup rl now) key ⟨0, now⟩) := by
    rw [Limit_def, hlk, href,
      if_neg (show ¬ ((⟨1, now⟩ : tokenBucket)).Tokens ≤ 0 by norm_num)]
    norm_num
  have hsecondkey : ((Limit rl key now).2).buckets key = some ⟨0, now⟩ := by
    rw [hfirst]
    exact setBucket_same _ _ _
  have hsecondct : ¬ ((Limit rl key now).2).cleanupTime < now := by
    rw [hfirst]
    rw [show (false, setBucket (maybeCleanup rl now) key (⟨0, now⟩ : tokenBucket)).2
        = setBucket (maybeCleanup rl now) key ⟨0, now⟩ from rfl, setBucket_cleanupTime]
    exact maybeCleanup_not_lt rl now
  refine ⟨hdiv, by rw [hfirst], hsecondkey, ?_⟩
  obtain ⟨hres, -, -, -, -⟩ :=
    Limit_same_time ((Limit rl key now).2) key now 0 hsecondkey hsecondct
  rw [hres]
  exact decide_eq_true (by omega)

/-- C7, counterexample.  With `rate = 100` and `burst = 2`, the key is
exhausted at instant 1 (the third call is denied); at instant 201 — at
least one full rate interval later — the refill credits
`floor(200 / 100) = 2` tokens, so TWO more checks are admitted, not
exactly one as the claim states for every wait of at least one interval. -/
theorem C7_counterexample_two_tokens_after_long_wait :
    limitNth (NewRateLimiter 100 2) "1.2.3.4" 1 2 = true ∧
    (Limit (limitIter (NewRateLimiter 100 2) "1.2.3.4" 1 2) "1.2.3.4" 201).1 = false ∧
    (Limit (Limit (limitIter (NewRateLimiter 100 2) "1.2.3.4" 1 2) "1.2.3.4" 201).2
      "1.2.3.4" 201).1 = false := by
  decide

/-- C7, witness: an exhausted bucket last refilled at instant 1, checked
at instant 151 with `rate = 100`, `burst = 2`: one token is credited and
consumed, the call is admitted, and the next immediate call is denied. -/
theorem C7_witness :
    (151 - (1 : Nat)) / (setBucket (NewRateLimiter 100 2) "1.2.3.4" ⟨0, 1⟩).rate = 1 ∧
    (Limit (setBucket (NewRateLimiter 100 2) "1.2.3.4" ⟨0, 1⟩) "1.2.3.4" 151).1 = false ∧
    ((Limit (setBucket (NewRateLimiter 100 2) "1.2.3.4" ⟨0, 1⟩) "1.2.3.4" 151).2).buckets
      "1.2.3.4" = some ⟨0, 151⟩ ∧
    (Limit (Limit (setBucket (NewRateLimiter 100 2) "1.2.3.4" ⟨0, 1⟩) "1.2.3.4" 151).2
      "1.2.3.4" 151).1 = true :=
  C7_one_refilled_token (setBucket (NewRateLimiter 100 2) "1.2.3.4" ⟨0, 1⟩) "1.2.3.4" 151
    ⟨0, 1⟩ (by decide) rfl (by decide) (by decide) (by decide) (by decide) (by decide)

/-! ## Claim C8 — independence of distinct keys -/

/-- C8, amended.  Provided key `b`'s bucket is not stale (last refill
within one hour of `now`, when it exists) and the rate is positive, a
`Limit` call on a different key `a` leaves `b`'s map entry exactly as it
was.  (Without the staleness proviso the periodic cleanup running inside
the `a` call may purge `b`'s bucket and re-arm the shared sweep timer,
changing `b`'s subsequent permits — see the counterexample.) -/
theorem C8_other_key_untouched (rl : RateLimiter) (a b : String) (now : Nat)
    (hrate : 0 < rl.rate) (hab : b ≠ a)
    (hfresh : ∀ bb, rl.buckets b = some bb → now - bb.LastCheck ≤ oneHour) :
    ((Limit rl a now).2).buckets b = rl.buckets b := by
  have hmc : (maybeCleanup rl now).buckets b = rl.buckets b := by
    rcases hx : rl.buckets b with _ | bb
    · exact maybeCleanup_buckets_none _ _ _ hx
    · exact maybeCleanup_buckets_some _ _ _ _ hx (hfresh bb hx)
  rw [Limit_def]
  split <;> (dsimp only; rw [setBucket_other _ _ _ _ hab]; exact hmc)

/-- C8, counterexample.  `rate` is ten hours, `burst = 1`.  Key
`"1.2.3.4"` is exhausted at instant 1.  At instant `1 + 57min` a check on
the distinct key `"10.0.0.9"` runs the sweep (keeping the 57-minute-old
bucket) and re-arms the sweep timer to `1 + 62min`; the check on
`"1.2.3.4"` at `1 + 61min` then finds no sweep due and its stale bucket
still present with zero tokens: DENIED.  Without the `"10.0.0.9"` call the
same check at `1 + 61min` sweeps its own stale bucket away, recreates it
full, and is ADMITTED.  So a check on one key changes another key's
available permits. -/
theorem C8_counterexample_cleanup_interference :
    (Limit ((Limit (NewRateLimiter 36000000000000 1) "1.2.3.4" 1).2) "1.2.3.4" 1).1
      = true ∧
    (Limit ((Limit (NewRateLimiter 36000000000000 1) "1.2.3.4" 1).2) "10.0.0.9"
      3420000000001).1 = false ∧
    (Limit (Limit ((Limit (NewRateLimiter 36000000000000 1) "1.2.3.4" 1).2) "10.0.0.9"
      3420000000001).2 "1.2.3.4" 3660000000001).1 = true ∧
    (Limit ((Limit (NewRateLimiter 36000000000000 1) "1.2.3.4" 1).2) "1.2.3.4"
      3660000000001).1 = false := by
  decide

/-- C8, witness: one instant after a check on `"1.2.3.4"`, a check on the
distinct key `"10.0.0.9"` leaves `"1.2.3.4"`'s bucket entry unchanged. -/
theorem C8_witness :
    ((Limit ((Limit (NewRateLimiter 100 2) "1.2.3.4" 1).2) "10.0.0.9" 2).2).buckets
        "1.2.3.4"
      = ((Limit (NewRateLimiter 100 2) "1.2.3.4" 1).2).buckets "1.2.3.4" :=
  C8_other_key_untouched ((Limit (NewRateLimiter 100 2) "1.2.3.4" 1).2) "10.0.0.9"
    "1.2.3.4" 2 (by decide) (by decide)
    (by
      intro bb h
      rw [show ((Limit (NewRateLimiter 100 2) "1.2.3.4" 1).2).buckets "1.2.3.4"
          = some ⟨1, 1⟩ from by decide] at h
      injection h with h2
      subst h2
      decide)

/-! ## Claim C10 — LastCheck is only advanced by a refill -/

/-- The refill stamps `LastCheck = now` whenever it credits a token. -/
theorem refill_lastcheck_of_pos (rl : RateLimiter) (b : tokenBucket) (now : Nat)
    (h : 0 < (now - b.LastCheck) / rl.rate) :
    (refill rl b now).LastCheck = now := by
  rw [refill_def,
    if_pos (show (0 : Int) < Int.ofNat ((now - b.LastCheck) / rl.rate) from
      Int.ofNat_pos.mpr h)]

/-- C10, amended.  For a non-stale bucket (so the hourly purge does not
remove it during the call): when less than one full `rate` interval has
elapsed since `LastCheck` (no token credited), a `Limit` call leaves
`LastCheck` unchanged — the bucket is either untouched (denied) or merely
decremented (allowed); and whenever at least one token is credited the
stored bucket's `LastCheck` becomes `now`.  The hourly purge compares
`now` against this `LastCheck`, i.e. the time of the last refill, not of
the last check. -/
theorem C10_lastcheck_only_moves_on_refill (rl : RateLimiter) (key : String) (now : Nat)
    (b : tokenBucket) (hrate : 0 < rl.rate) (hkey : rl.buckets key = some b)
    (hfresh : now - b.LastCheck ≤ oneHour) :
    ((now - b.LastCheck) / rl.rate = 0 →
      ((Limit rl key now).2).buckets key =
        some (if b.Tokens ≤ 0 then b else ⟨b.Tokens - 1, b.LastCheck⟩)) ∧
    (0 < (now - b.LastCheck) / rl.rate →
      ∃ t, ((Limit rl key now).2).buckets key = some ⟨t, now⟩) := by
  have hbk : (maybeCleanup rl now).buckets key = some b :=
    maybeCleanup_buckets_some _ _ _ _ hkey hfresh
  have hlk : lookupBucket (maybeCleanup rl now) key now = b :=
    lookupBucket_some _ _ _ _ hbk
  constructor
  · intro hz
    have href : refill (maybeCleanup rl now) b now = b := by
      rw [refill_def, maybeCleanup_rate, hz, show Int.ofNat 0 = 0 from rfl,
        if_neg (by omega : ¬ (0 : Int) < 0)]
    rw [Limit_def, hlk, href]
    by_cases hT : b.Tokens ≤ 0
    · rw [if_pos hT]
      dsimp only
      rw [setBucket_same, if_pos hT]
    · rw [if_neg hT]
      dsimp only
      rw [setBucket_same, if_neg hT]
  · intro hpos
    have hlast : (refill (maybeCleanup rl now) b now).LastCheck = now := by
      rw [refill_lastcheck_of_pos]
      rw [maybeCleanup_rate]
      exact hpos
    rw [Limit_def, hlk]
    by_cases hT : (refill (maybeCleanup rl now) b now).Tokens ≤ 0
    · rw [if_pos hT]
      dsimp only
      refine ⟨(refill (maybeCleanup rl now) b now).Tokens, ?_⟩
      rw [setBucket_same]
      rw [show refill (maybeCleanup rl now) b now
          = ⟨(refill (maybeCleanup rl now) b now).Tokens,
             (refill (maybeCleanup rl now) b now).LastCheck⟩ from rfl, hlast]
    · rw [if_neg hT]
      dsimp only
      refine ⟨(refill (maybeCleanup rl now) b now).Tokens - 1, ?_⟩
      rw [setBucket_same, hlast]

/-- C10, counterexample.  `rate` is two hours, `burst = 1`.  The bucket is
created and exhausted at instant 1; a check at `1 + 90min` credits no
token by the refill rule (`90min < rate`, floor is 0), yet the stored
bucket's `LastCheck` jumps from 1 to `1 + 90min`: the hourly purge inside
the call deleted the 90-minute-stale bucket and the call recreated it. -/
theorem C10_counterexample_purge_resets_lastcheck :
    ((Limit (NewRateLimiter 7200000000000 1) "1.2.3.4" 1).2).buckets "1.2.3.4"
      = some ⟨0, 1⟩ ∧
    (5400000000001 - 1) / (7200000000000 : Nat) = 0 ∧
    ((Limit ((Limit (NewRateLimiter 7200000000000 1) "1.2.3.4" 1).2) "1.2.3.4"
        5400000000001).2).buckets "1.2.3.4" = some ⟨0, 5400000000001⟩ := by
  decide

/-- C10, witness: a bucket refilled at instant 5 holding one token,
checked at instant 7 with `rate = 100`: no token is credited and the
stored bucket keeps `LastCheck = 5`, only its token count drops. -/
theorem C10_witness :
    ((Limit ((Limit (NewRateLimiter 100 2) "1.2.3.4" 5).2) "1.2.3.4" 7).2).buckets
      "1.2.3.4" = some ⟨0, 5⟩ := by
  have h := (C10_lastcheck_only_moves_on_refill
    ((Limit (NewRateLimiter 100 2) "1.2.3.4" 5).2) "1.2.3.4" 7 ⟨1, 5⟩
    (by decide) (by decide) (by decide)).1 (by decide)
  rwa [if_neg (by decide : ¬ ((⟨1, 5⟩ : tokenBucket)).Tokens ≤ 0)] at h

/-! ## Claim C9 — Limit is the negation of the spec's Check -/

/-- The integer minimum written as the Go clamp conditional. -/
theorem min_eq_ite_int (x y : Int) : min x y = if y < x then y else x := by
  rw [min_def]
  by_cases h : y < x
  · rw [if_neg (by omega), if_pos h]
  · rw [if_pos (by omega), if_neg h]

/-- `CheckSpec` unfolded through the code-side helper functions: its sweep,
lookup and store agree definitionally with the code's, and its clamped
refill equals the code's `refill`. -/
theorem CheckSpec_eq (rl : RateLimiter) (key : String) (now : Nat) :
    CheckSpec rl key now =
      if (refill (maybeCleanup rl now) (lookupBucket (maybeCleanup rl now) key now) now).Tokens
          ≤ 0 then
        (false, setBucket (maybeCleanup rl now) key
          (refill (maybeCleanup rl now) (lookupBucket (maybeCleanup rl now) key now) now))
      else
        (true, setBucket (maybeCleanup rl now) key
          ⟨(refill (maybeCleanup rl now)
              (lookupBucket (maybeCleanup rl now) key now) now).Tokens - 1,
           (refill (maybeCleanup rl now)
              (lookupBucket (maybeCleanup rl now) key now) now).LastCheck⟩) := by
  have hb1 : refill (maybeCleanup rl now) (lookupBucket (maybeCleanup rl now) key now) now
      = (if 0 < Int.ofNat ((now - (lookupBucket (maybeCleanup rl now) key now).LastCheck)
            / (maybeCleanup rl now).rate) then
          (⟨min ((lookupBucket (maybeCleanup rl now) key now).Tokens +
              Int.ofNat ((now - (lookupBucket (maybeCleanup rl now) key now).LastCheck)
                / (maybeCleanup rl now).rate)) (maybeCleanup rl now).burst, now⟩ : tokenBucket)
        else lookupBucket (maybeCleanup rl now) key now) := by
    rw [refill_def, min_eq_ite_int]
  rw [hb1]
  rfl

/-- C9.  The public `Limit(key)` is the boolean negation of the spec's
`Check(key)`: they produce the same post-state, `Limit` returns `true`
exactly when `Check` returns `false` (denied — the stored bucket is the
refilled bucket untouched, no token consumed), and `Limit` returns
`false` exactly when `Check` returns `true` (allowed — the stored bucket
is the refilled bucket with exactly one token consumed). -/
theorem C9_limit_is_negated_check (rl : RateLimiter) (key : String) (now : Nat) :
    (Limit rl key now).1 = !((CheckSpec rl key now).1) ∧
    (CheckSpec rl key now).2 = (Limit rl key now).2 ∧
    ((Limit rl key now).1 = true →
      ((Limit rl key now).2).buckets key =
        some (refill (maybeCleanup rl now) (lookupBucket (maybeCleanup rl now) key now) now))
      ∧
    ((Limit rl key now).1 = false →
      ((Limit rl key now).2).buckets key =
        some ⟨(refill (maybeCleanup rl now)
                (lookupBucket (maybeCleanup rl now) key now) now).Tokens - 1,
              (refill (maybeCleanup rl now)
                (lookupBucket (maybeCleanup rl now) key now) now).LastCheck⟩) := by
  have hmain : CheckSpec rl key now = (!(Limit rl key now).1, (Limit rl key now).2) := by
    rw [CheckSpec_eq, Limit_def]
    by_cases hT : (refill (maybeCleanup rl now)
        (lookupBucket (maybeCleanup rl now) key now) now).Tokens ≤ 0
    · rw [if_pos hT, if_pos hT]
      rfl
    · rw [if_neg hT, if_neg hT]
      rfl
  refine ⟨by simp [hmain], by rw [hmain], fun h => ?_, fun h => ?_⟩
  · by_cases hT : (refill (maybeCleanup rl now)
        (lookupBucket (maybeCleanup rl now) key now) now).Tokens ≤ 0
    · rw [Limit_def, if_pos hT]
      dsimp only
      exact setBucket_same _ _ _
    · rw [Limit_def, if_neg hT] at h
      simp at h
  · by_cases hT : (refill (maybeCleanup rl now)
        (lookupBucket (maybeCleanup rl now) key now) now).Tokens ≤ 0
    · rw [Limit_def, if_pos hT] at h
      simp at h
    · rw [Limit_def, if_neg hT]
      dsimp only
      exact setBucket_same _ _ _

/-- C9, witness: on a fresh limiter with burst 2, the first call is
allowed — `Limit` answers `false`, the negation of `Check`'s `true` — and
the stored bucket is the refilled (created-full) bucket minus exactly one
token. -/
theorem C9_witness :
    (Limit (NewRateLimiter 100 2) "1.2.3.4" 9).1
        = !((CheckSpec (NewRateLimiter 100 2) "1.2.3.4" 9).1) ∧
    ((Limit (NewRateLimiter 100 2) "1.2.3.4" 9).2).buckets "1.2.3.4"
        = some ⟨(refill (maybeCleanup (NewRateLimiter 100 2) 9)
              (lookupBucket (maybeCleanup (NewRateLimiter 100 2) 9) "1.2.3.4" 9) 9).Tokens
              - 1,
            (refill (maybeCleanup (NewRateLimiter 100 2) 9)
              (lookupBucket (maybeCleanup (NewRateLimiter 100 2) 9) "1.2.3.4" 9) 9).LastCheck⟩
      :=
  ⟨(C9_limit_is_negated_check (NewRateLimiter 100 2) "1.2.3.4" 9).1,
   (C9_limit_is_negated_check (NewRateLimiter 100 2) "1.2.3.4" 9).2.2.2 (by decide)⟩

/-! ## Claim C1 — retry exhaustion: attempt count and single terminal report -/

/-- C1, counterexample.  In Scenario C of the claim (`maxRetries = 2`,
transport always fails, one job enqueued with `Retries = 0`) the worker
loop never notifies the persistence collaborator of the `Failed` outcome:
the trace holds zero persistence records, not the one the claim demands. -/
theorem C1_counterexample_no_persistence_record :
    countPersistenceRecords (runAlwaysFail 2 ⟨["user@example.com"], "subject", "body", 0⟩) ≠ 1 := by
  obtain ⟨-, -, h⟩ :=
    runAlwaysFail_count_eq 2 2 ⟨["user@example.com"], "subject", "body", 0⟩ rfl
  omega

/-- C1, amended.  For every job enqueued with `Retries = 0` on a dispatcher
configured with `maxRetries`, if every transport attempt fails (and each
re-submission is accepted), the transport is invoked exactly
`maxRetries + 1` times and the terminal outcome is reported exactly once —
by the worker's permanent-failure log; no persistence collaborator is
notified (the worker records nothing). -/
theorem C1_always_fail_attempt_and_report_counts
    (maxRetries : Nat) (job : EmailJob) (h : job.Retries = 0) :
    countTransportAttempts (runAlwaysFail maxRetries job) = maxRetries + 1 ∧
    countPermanentFailureLogs (runAlwaysFail maxRetries job) = 1 ∧
    countPersistenceRecords (runAlwaysFail maxRetries job) = 0 := by
  have := runAlwaysFail_count_eq maxRetries maxRetries job (by omega)
  simpa using this

/-- C1, witness: Scenario C with `maxRetries = 2` — three transport
attempts, one permanent-failure log, no persistence notification. -/
theorem C1_witness :
    countTransportAttempts (runAlwaysFail 2 ⟨["owner@example.com"], "s", "b", 0⟩) = 3 ∧
    countPermanentFailureLogs (runAlwaysFail 2 ⟨["owner@example.com"], "s", "b", 0⟩) = 1 ∧
    countPersistenceRecords (runAlwaysFail 2 ⟨["owner@example.com"], "s", "b", 0⟩) = 0 :=
  C1_always_fail_attempt_and_report_counts 2 ⟨["owner@example.com"], "s", "b", 0⟩ rfl

/-! ## Claim C2 — Shutdown idempotence -/

/-- C2, evaluation at the failing input.  A first `Shutdown` on a freshly
constructed service terminates with every worker exited, and terminates
even when a job is still buffered; but a second `Shutdown` reaches
`close(es.jobQueue)` with the channel already closed and panics (`none`),
so `Shutdown` is not idempotent. -/
theorem C2_second_shutdown_panics :
    (Shutdown (NewEmailService 5 2 3)).map EmailService.workersRunning = some 0 ∧
    (Shutdown { NewEmailService 5 2 3 with
        jobQueue := [⟨["user@example.com"], "s", "b", 0⟩] }).isSome = true ∧
    (Shutdown (NewEmailService 5 2 3)).bind Shutdown = none := by
  decide

/-! ## Claim C3 — Enqueue validation, rejection and success cases -/

/-- C3.  `SendAsync` fails synchronously with the validation error when the
recipient list is empty (never enqueueing); fails with the shutting-down
error once shutdown has been initiated; fails with the queue-full error
when the bounded buffer has no free slot; and otherwise returns success
immediately, appending the job at the tail with `Retries = 0`. -/
theorem C3_sendasync_cases (es : EmailService) («to» : List String) (subject body : String) :
    («to» = [] → SendAsync es «to» subject body = .error .noRecipients) ∧
    («to» ≠ [] → es.ctxDone = true →
      SendAsync es «to» subject body = .error .shuttingDown) ∧
    («to» ≠ [] → es.ctxDone = false → es.queueSize ≤ es.jobQueue.length →
      SendAsync es «to» subject body = .error .queueFull) ∧
    («to» ≠ [] → es.ctxDone = false → es.jobQueue.length < es.queueSize →
      SendAsync es «to» subject body =
        .ok { es with jobQueue := es.jobQueue ++ [⟨«to», subject, body, 0⟩] }) := by
  refine ⟨fun h => ?_, fun h hd => ?_, fun h hd hfull => ?_, fun h hd hroom => ?_⟩
  · simp [SendAsync, h]
  · have hlen : ¬ «to».length = 0 := by simpa using h
    simp [SendAsync, hlen, hd]
  · have hlen : ¬ «to».length = 0 := by simpa using h
    have : ¬ es.jobQueue.length < es.queueSize := by omega
    simp [SendAsync, hlen, hd, this]
  · have hlen : ¬ «to».length = 0 := by simpa using h
    simp [SendAsync, hlen, hd, hroom]

/-- C3, witness: on a capacity-1 dispatcher, the four cases at concrete
inputs — empty recipients rejected, enqueue after shutdown rejected,
enqueue on a full buffer rejected, and a normal enqueue appended at the
tail with `Retries = 0`. -/
theorem C3_witness :
    SendAsync (NewEmailService 1 1 3) [] "s" "b" = .error .noRecipients ∧
    SendAsync { NewEmailService 1 1 3 with ctxDone := true } ["r@example.com"] "s" "b" =
      .error .shuttingDown ∧
    SendAsync { NewEmailService 1 1 3 with
        jobQueue := [⟨["q@example.com"], "s0", "b0", 0⟩] } ["r@example.com"] "s" "b" =
      .error .queueFull ∧
    SendAsync (NewEmailService 1 1 3) ["r@example.com"] "s" "b" =
      .ok { NewEmailService 1 1 3 with jobQueue := [⟨["r@example.com"], "s", "b", 0⟩] } :=
  ⟨(C3_sendasync_cases (NewEmailService 1 1 3) [] "s" "b").1 rfl,
   (C3_sendasync_cases { NewEmailService 1 1 3 with ctxDone := true }
      ["r@example.com"] "s" "b").2.1 (by decide) rfl,
   (C3_sendasync_cases { NewEmailService 1 1 3 with
      jobQueue := [⟨["q@example.com"], "s0", "b0", 0⟩] } ["r@example.com"] "s" "b").2.2.1
      (by decide) rfl (by decide),
   (C3_sendasync_cases (NewEmailService 1 1 3) ["r@example.com"] "s" "b").2.2.2
      (by decide) rfl (by decide)⟩

/-! ## Claim C4 — construction-time validation of configuration -/

/-- C4, counterexample.  An invalid configuration is not rejected at
construction: a dispatcher constructed with zero workers is returned and
operating (it even accepts a job that no worker will ever process), and
an admission controller constructed with zero refill rate and zero burst
is returned, its invalid parameters stored unchecked.  (Nothing here
calls `Limit` on the zero-rate controller: in Go that call would panic
with an integer divide-by-zero — a runtime crash, not a construction-time
rejection.) -/
theorem C4_counterexample_invalid_config_accepted :
    (NewEmailService 8 0 3).workersRunning = 0 ∧
    SendAsync (NewEmailService 8 0 3) ["user@example.com"] "s" "b" =
      .ok { jobQueue := [⟨["user@example.com"], "s", "b", 0⟩], queueSize := 8,
            maxWorkers := 0, maxRetries := 3, ctxDone := false, queueClosed := false,
            workersRunning := 0 } ∧
    (NewRateLimiter 0 0).rate = 0 ∧
    (NewRateLimiter 0 0).burst = 0 :=
  ⟨rfl, rfl, rfl, rfl⟩

/-- C4, amended.  Neither constructor validates any configuration
parameter: `NewEmailService` and `NewRateLimiter` store whatever refill
rate, burst size, queue capacity, worker count and maximum retry count
they are given — including zero values — and return a fully constructed,
started component. -/
theorem C4_constructors_never_validate :
    (∀ queueSize maxWorkers maxRetries : Nat,
      NewEmailService queueSize maxWorkers maxRetries =
        { jobQueue := [], queueSize := queueSize, maxWorkers := maxWorkers,
          maxRetries := maxRetries, ctxDone := false, queueClosed := false,
          workersRunning := maxWorkers }) ∧
    (∀ (rate : Nat) (burst : Int) (k : String),
      (NewRateLimiter rate burst).rate = rate ∧
      (NewRateLimiter rate burst).burst = burst ∧
      (NewRateLimiter rate burst).cleanupTime = 0 ∧
      (NewRateLimiter rate burst).buckets k = none) :=
  ⟨fun _ _ _ => rfl, fun _ _ _ => ⟨rfl, rfl, rfl, rfl⟩⟩

end StaticSend
